import Mathlib

/-!
Verification of the mini-overlay point-to-point tunnel datapath.

Shallow embedding of cmd/mini-overlay/main.go (src/mini_overlay/mini_overlay.go,
and the variant src/unnamed/part_001 which additionally contains the keepalive
goroutine).  Bytes are Fin 256, byte strings are lists of bytes, UDP addresses
are abstracted to naturals.  The nacl/secretbox primitive is an external
library; it is modelled here by an executable construction that is faithful to
the library contract used by the program: Seal appends a 16-byte authenticator
tag plus a ciphertext of the same length as the message (Overhead = 16), Open
rejects boxes shorter than 16 bytes and otherwise verifies the tag and inverts
Seal for the same key and nonce.
-/

abbrev Byte := Fin 256

abbrev Bytes := List Byte

abbrev Addr := Nat

/-- Coerce a natural to a byte by reduction mod 256. -/
def byteOf (v : Nat) : Byte := ⟨v % 256, Nat.mod_lt _ (by norm_num)⟩

/-- The box struct of mini_overlay.go lines 27-30: a pre-shared key and the
encryption-enabled flag.  The Go field key is a fixed 32-byte array; here it is
a byte list and theorems carry the length-32 hypothesis where the claim states
it. -/
structure box where
  key : Bytes
  enable : Bool
deriving DecidableEq

/-- Fold a byte string into a natural, used by the mock keystream and tag. -/
def mixFold (seed : Nat) (l : Bytes) : Nat :=
  l.foldl (fun a b => a * 31 + b.val + 1) seed

/-- Mock XSalsa20 keystream byte at position i for the given key and nonce. -/
def ksByte (key nonce : Bytes) (i : Nat) : Byte :=
  byteOf (mixFold 7 key * 131 + mixFold 11 nonce * 137 + i * 13 + 5)

/-- Stream encryption: add the keystream byte position-wise (mock of the
XSalsa20 XOR layer; addition in Fin 256 is invertible just as XOR is). -/
def encryptFrom (key nonce : Bytes) : Nat → Bytes → Bytes
  | _, [] => []
  | i, m :: rest => (m + ksByte key nonce i) :: encryptFrom key nonce (i + 1) rest

/-- Stream decryption: subtract the keystream byte position-wise. -/
def decryptFrom (key nonce : Bytes) : Nat → Bytes → Bytes
  | _, [] => []
  | i, c :: rest => (c - ksByte key nonce i) :: decryptFrom key nonce (i + 1) rest

/-- Mock 16-byte Poly1305 authenticator over the ciphertext under key and
nonce. -/
def tagOf (key nonce ct : Bytes) : Bytes :=
  (List.range 16).map
    (fun i => byteOf (mixFold 3 key * 151 + mixFold 5 nonce * 157 + mixFold 13 ct * 163 + i * 17))

/-- Model of secretbox.Seal restricted to an empty destination slice: returns
tag followed by ciphertext, Overhead = 16 bytes longer than the message (the
Go library places the Poly1305 tag in the first 16 bytes of the box). -/
def secretbox_Seal (key nonce msg : Bytes) : Bytes :=
  tagOf key nonce (encryptFrom key nonce 0 msg) ++ encryptFrom key nonce 0 msg

/-- Model of secretbox.Open restricted to an empty destination slice: rejects
boxes shorter than Overhead = 16 bytes, verifies the tag, and decrypts. -/
def secretbox_Open (key nonce bx : Bytes) : Option Bytes :=
  if bx.length < 16 then none
  else if bx.take 16 = tagOf key nonce (bx.drop 16) then
    some (decryptFrom key nonce 0 (bx.drop 16))
  else none

/-- The seal method of mini_overlay.go lines 32-44.  The destination slice is
always empty at every call site (out[:0] or nil), so it is omitted.  The
24 random nonce bytes drawn from crypto/rand are passed as the nonce
parameter; the only failure of the Go function is a failed random read, which
the parameter models away, so seal is total here. -/
def box.seal (b : box) (nonce msg : Bytes) : Bytes :=
  if !b.enable then msg
  else nonce ++ secretbox_Seal b.key nonce msg

/-- The open method of mini_overlay.go lines 46-57.  The destination slice is
always dst[:0] (empty) at every call site, so it is omitted.  Returns none for
the reject case (ok = false). -/
def box.«open» (b : box) (pkt : Bytes) : Option Bytes :=
  if !b.enable then some pkt
  else if pkt.length < 24 then none
  else secretbox_Open b.key (pkt.take 24) (pkt.drop 24)

/-- One observable interaction of the inbound (UDP to TUN) goroutine with its
environment: either the blocking UDP read fails, or it delivers one datagram
from a sender, in which case the subsequent TUN write of the decrypted payload
(if any) either succeeds or fails, recorded in tunWriteOk. -/
inductive InboundEvent where
  | udpReadErr : InboundEvent
  | udpRead (sender : Addr) (data : Bytes) (tunWriteOk : Bool) : InboundEvent
deriving DecidableEq

/-- One iteration of the inbound goroutine of mini_overlay.go lines 169-191
(identically part_001 lines 150-172).  Result: the new value of the raddr
cell, the payload passed to the TUN write (if open accepted), and whether the
loop continues to its next iteration.  Faithful points: raddr is assigned from
the sender before open is called and only when it is nil; a UDP read error
returns from the goroutine; a TUN write error is logged and the loop
continues. -/
def inboundStep (b : box) (peer : Option Addr) (ev : InboundEvent) :
    Option Addr × Option Bytes × Bool :=
  match ev with
  | .udpReadErr => (peer, none, false)
  | .udpRead sender data _ =>
    match b.«open» data with
    | none => (some (peer.getD sender), none, true)
    | some plain => (some (peer.getD sender), some plain, true)

/-- The raddr cell after the inbound goroutine has processed a sequence of
events, stopping when an iteration does not continue. -/
def runInboundPeer (b : box) (peer : Option Addr) : List InboundEvent → Option Addr
  | [] => peer
  | ev :: evs =>
    if (inboundStep b peer ev).2.2 then runInboundPeer b (inboundStep b peer ev).1 evs
    else (inboundStep b peer ev).1

/-- One observable interaction of the outbound (TUN to UDP) goroutine with its
environment: either the blocking TUN read fails, or it delivers one packet;
the nonce is the 24 random bytes seal will draw for this packet. -/
inductive OutboundEvent where
  | tunReadErr : OutboundEvent
  | tunRead (pkt : Bytes) (nonce : Bytes) : OutboundEvent
deriving DecidableEq

/-- One iteration of the outbound goroutine of mini_overlay.go lines 143-166
(identically part_001 lines 123-147).  Result: the UDP datagram sent and its
destination (none when nothing is sent), and whether the loop continues.
Faithful points: the packet is sealed before the raddr nil check; when raddr
is nil the iteration continues without sending; a TUN read error returns from
the goroutine.  The raddr cell is never written by this goroutine. -/
def outboundStep (b : box) (peer : Option Addr) (ev : OutboundEvent) :
    Option (Addr × Bytes) × Bool :=
  match ev with
  | .tunReadErr => (none, false)
  | .tunRead pkt nonce =>
    match peer with
    | none => (none, true)
    | some a => (some (a, b.seal nonce pkt), true)

/-- One 15-second tick of the keepalive goroutine of part_001 lines 175-188:
if raddr is set, seal a single random byte rb (with fresh nonce) and send it
to raddr; otherwise do nothing.  Result: the UDP datagram sent and its
destination, if any.  The raddr cell is never written by this goroutine. -/
def keepaliveStep (b : box) (peer : Option Addr) (rb : Byte) (nonce : Bytes) :
    Option (Addr × Bytes) :=
  match peer with
  | none => none
  | some a => some (a, b.seal nonce [rb])

/-- A concrete enabled box whose key is 32 zero bytes. -/
def boxZ : box := ⟨List.replicate 32 0, true⟩

/-- A concrete disabled box. -/
def boxD : box := ⟨List.replicate 32 0, false⟩

/-- A concrete 24-byte nonce of zeros. -/
def nonce0 : Bytes := List.replicate 24 0

/-- A concrete one-byte plaintext. -/
def pkt1 : Bytes := [37]

/-- A concrete 10-byte datagram, shorter than the 24-byte nonce prefix. -/
def pkt10 : Bytes := List.replicate 10 0

-- Supporting lemmas about the secretbox model.

theorem encryptFrom_length (key nonce : Bytes) (i : Nat) (m : Bytes) :
    (encryptFrom key nonce i m).length = m.length := by
  induction m generalizing i with
  | nil => rfl
  | cons hd tl ih => simp [encryptFrom, ih]

theorem decryptFrom_length (key nonce : Bytes) (i : Nat) (c : Bytes) :
    (decryptFrom key nonce i c).length = c.length := by
  induction c generalizing i with
  | nil => rfl
  | cons hd tl ih => simp [decryptFrom, ih]

theorem decryptFrom_encryptFrom (key nonce : Bytes) (i : Nat) (m : Bytes) :
    decryptFrom key nonce i (encryptFrom key nonce i m) = m := by
  induction m generalizing i with
  | nil => rfl
  | cons hd tl ih => simp [encryptFrom, decryptFrom, ih]

theorem tagOf_length (key nonce ct : Bytes) : (tagOf key nonce ct).length = 16 := by
  simp [tagOf]

theorem secretbox_Seal_length (key nonce msg : Bytes) :
    (secretbox_Seal key nonce msg).length = msg.length + 16 := by
  simp [secretbox_Seal, tagOf_length, encryptFrom_length]
  omega

theorem secretbox_Open_Seal (key nonce msg : Bytes) :
    secretbox_Open key nonce (secretbox_Seal key nonce msg) = some msg := by
  unfold secretbox_Open secretbox_Seal
  rw [List.take_left' (tagOf_length key nonce _), List.drop_left' (tagOf_length key nonce _)]
  simp [List.length_append, tagOf_length, encryptFrom_length, decryptFrom_encryptFrom]

-- Claim theorems.

/-- C1: with encryption enabled, for every 32-byte key, every plaintext p and
every 24-byte nonce drawn by seal, opening the sealed datagram yields exactly
p. -/
theorem c1_open_seal_roundtrip (b : box) (hb : b.enable = true) (hk : b.key.length = 32)
    (nonce : Bytes) (hn : nonce.length = 24) (p : Bytes) :
    b.«open» (b.seal nonce p) = some p := by
  have hlen : 24 ≤ List.length nonce + List.length (secretbox_Seal b.key nonce p) := by
    rw [hn, secretbox_Seal_length]
    omega
  simp [box.seal, box.«open», hb, hlen, List.take_left' hn, List.drop_left' hn,
    secretbox_Open_Seal]

/-- Witness for C1 at a concrete enabled box, nonce and plaintext. -/
theorem c1_witness : boxZ.«open» (boxZ.seal nonce0 pkt1) = some pkt1 :=
  c1_open_seal_roundtrip boxZ rfl (by decide) nonce0 (by decide) pkt1

/-- C2: with encryption enabled, every datagram of 39 bytes or fewer (in
particular every datagram shorter than 24 bytes) is rejected by open, while
the concrete 40-byte datagram sealing the empty plaintext is accepted. -/
theorem c2_short_rejected_forty_accepted :
    (∀ b : box, b.enable = true → ∀ pkt : Bytes, pkt.length ≤ 39 → b.«open» pkt = none)
    ∧ boxZ.«open» (boxZ.seal nonce0 []) = some []
    ∧ (boxZ.seal nonce0 []).length = 40 := by
  refine ⟨?_, by decide, by decide⟩
  intro b hb pkt hlen
  by_cases h24 : pkt.length < 24
  · simp [box.«open», hb, h24]
  · have h16 : pkt.length - 24 < 16 := by omega
    simp [box.«open», hb, h24, secretbox_Open, List.length_drop, h16]

/-- Witness for C2 applying the universally quantified rejection part at a
concrete 10-byte datagram. -/
theorem c2_witness : boxZ.«open» pkt10 = none :=
  c2_short_rejected_forty_accepted.1 boxZ rfl pkt10 (by decide)

/-- C3: with encryption enabled seal returns the 24-byte nonce followed by
the secretbox output (ciphertext plus 16-byte tag), so the datagram has
length exactly plaintext length + 40 and is never shorter than 40 bytes. -/
theorem c3_seal_shape_length (b : box) (hb : b.enable = true) (nonce p : Bytes)
    (hn : nonce.length = 24) :
    b.seal nonce p = nonce ++ secretbox_Seal b.key nonce p
    ∧ (b.seal nonce p).length = p.length + 40
    ∧ 40 ≤ (b.seal nonce p).length := by
  have h1 : b.seal nonce p = nonce ++ secretbox_Seal b.key nonce p := by
    simp [box.seal, hb]
  have h2 : (b.seal nonce p).length = p.length + 40 := by
    rw [h1]
    simp [List.length_append, hn, secretbox_Seal_length]
    omega
  exact ⟨h1, h2, by omega⟩

/-- Witness for C3 at a concrete enabled box, nonce and plaintext. -/
theorem c3_witness :
    boxZ.seal nonce0 pkt1 = nonce0 ++ secretbox_Seal boxZ.key nonce0 pkt1
    ∧ (boxZ.seal nonce0 pkt1).length = pkt1.length + 40
    ∧ 40 ≤ (boxZ.seal nonce0 pkt1).length :=
  c3_seal_shape_length boxZ rfl nonce0 pkt1 (by decide)

/-- C4 counterexample: a 10-byte inbound datagram is rejected by open, yet
processing it with the peer cell unset sets the peer to the sender, because
the inbound goroutine assigns raddr before calling open.  This refutes the
claim that a rejected datagram does not set the peer address. -/
theorem c4_counterexample :
    boxZ.«open» pkt10 = none
    ∧ (inboundStep boxZ none (.udpRead 7 pkt10 true)).1 = some 7 := by
  decide

/-- C4 amended: when no peer was configured, the peer cell moves from unset
to set on the first inbound datagram received, whether or not open accepts
it; the new peer is the datagram sender. -/
theorem c4_peer_set_on_first_datagram (b : box) (sender : Addr) (data : Bytes) (w : Bool) :
    (inboundStep b none (.udpRead sender data w)).1 = some sender := by
  cases h : b.«open» data <;> simp [inboundStep, h]

/-- C5: once the peer cell is set, no inbound iteration and no sequence of
inbound iterations ever clears or rebinds it, whatever the sender and
datagram, so the unset-to-set transition happens at most once per process
lifetime. -/
theorem c5_peer_never_rebound (b : box) (a : Addr) :
    (∀ ev : InboundEvent, (inboundStep b (some a) ev).1 = some a)
    ∧ ∀ evs : List InboundEvent, runInboundPeer b (some a) evs = some a := by
  have hstep : ∀ ev : InboundEvent, (inboundStep b (some a) ev).1 = some a := by
    intro ev
    cases ev with
    | udpReadErr => rfl
    | udpRead s d w =>
      cases h : b.«open» d <;> simp [inboundStep, h]
  refine ⟨hstep, ?_⟩
  intro evs
  induction evs with
  | nil => rfl
  | cons ev evs ih =>
    unfold runInboundPeer
    rw [hstep ev]
    split
    · exact ih
    · rfl

/-- C6: in the outbound loop every TUN packet is sealed, and then: with the
peer unset nothing is sent on UDP; with the peer set the sealed datagram is
sent to the current peer address. -/
theorem c6_outbound_drop_or_send (b : box) (pkt nonce : Bytes) :
    (outboundStep b none (.tunRead pkt nonce)).1 = none
    ∧ ∀ a : Addr, (outboundStep b (some a) (.tunRead pkt nonce)).1 = some (a, b.seal nonce pkt) :=
  ⟨rfl, fun _ => rfl⟩

/-- C7: on a keepalive tick with the peer set, exactly one sealed datagram
carrying a single random byte is emitted to the peer, of length 41 when
encryption is enabled; with the peer unset the tick emits nothing.  The
15-second cadence is modelled by the tick itself. -/
theorem c7_keepalive_tick (b : box) (rb : Byte) (nonce : Bytes) (hn : nonce.length = 24) :
    keepaliveStep b none rb nonce = none
    ∧ ∀ a : Addr, keepaliveStep b (some a) rb nonce = some (a, b.seal nonce [rb])
      ∧ (b.enable = true → (b.seal nonce [rb]).length = 41) := by
  refine ⟨rfl, fun a => ⟨rfl, fun hb => ?_⟩⟩
  simp [box.seal, hb, List.length_append, hn, secretbox_Seal_length]

/-- Witness for C7 at a concrete enabled box, peer, random byte and nonce. -/
theorem c7_witness :
    keepaliveStep boxZ none 0 nonce0 = none
    ∧ keepaliveStep boxZ (some 7) 0 nonce0 = some (7, boxZ.seal nonce0 [0])
    ∧ (boxZ.seal nonce0 [0]).length = 41 := by
  have h := c7_keepalive_tick boxZ 0 nonce0 (by decide)
  exact ⟨h.1, (h.2 7).1, (h.2 7).2 rfl⟩

/-- C8: with encryption disabled, seal returns the plaintext unchanged and
never fails, and open accepts every datagram unchanged, including datagrams
shorter than 24 bytes and the empty datagram. -/
theorem c8_disabled_identity (b : box) (hb : b.enable = false) :
    (∀ nonce p : Bytes, b.seal nonce p = p) ∧ ∀ d : Bytes, b.«open» d = some d := by
  constructor
  · intro nonce p
    simp [box.seal, hb]
  · intro d
    simp [box.«open», hb]

/-- Witness for C8 at the concrete disabled box, with the empty datagram. -/
theorem c8_witness : boxD.seal nonce0 pkt1 = pkt1 ∧ boxD.«open» [] = some [] := by
  have h := c8_disabled_identity boxD rfl
  exact ⟨h.1 nonce0 pkt1, h.2 []⟩

/-- C9 counterexample: a valid inbound datagram whose TUN write fails
(tunWriteOk = false) still leaves the inbound loop running, refuting the
claim that a failed TUN write terminates the inbound loop: the code only logs
it and continues. -/
theorem c9_counterexample :
    (inboundStep boxZ (some 7) (.udpRead 7 (boxZ.seal nonce0 pkt1) false)).2.1 = some pkt1
    ∧ (inboundStep boxZ (some 7) (.udpRead 7 (boxZ.seal nonce0 pkt1) false)).2.2 = true := by
  decide

/-- C9 amended: a failed TUN read is logged and terminates only the outbound
loop, sending nothing; a failed TUN write is logged and the inbound loop
continues to its next iteration, the inbound loop terminating only on a UDP
read failure; no failure crashes the process. -/
theorem c9_loop_error_semantics (b : box) (peer : Option Addr) :
    ((outboundStep b peer .tunReadErr).2 = false ∧ (outboundStep b peer .tunReadErr).1 = none)
    ∧ (inboundStep b peer .udpReadErr).2.2 = false
    ∧ ∀ (sender : Addr) (data : Bytes) (w : Bool),
        (inboundStep b peer (.udpRead sender data w)).2.2 = true := by
  refine ⟨⟨rfl, rfl⟩, rfl, ?_⟩
  intro s d w
  cases h : b.«open» d <;> simp [inboundStep, h]

/-- C10: with encryption enabled, whenever open accepts a datagram the
returned plaintext is exactly 40 bytes shorter than the datagram, so only
datagrams of at least 40 bytes can be accepted. -/
theorem c10_open_accept_length (b : box) (hb : b.enable = true) (d plain : Bytes)
    (h : b.«open» d = some plain) :
    plain.length + 40 = d.length ∧ 40 ≤ d.length := by
  by_cases h24 : d.length < 24
  · simp [box.«open», hb, h24] at h
  · simp [box.«open», hb, h24, secretbox_Open, List.length_drop] at h
    obtain ⟨hge, htag, hdec⟩ := h
    have hp : plain.length = (d.drop 40).length := by
      rw [← hdec, decryptFrom_length]
    simp [List.length_drop] at hp
    omega

/-- Witness for C10 at a concrete accepted 41-byte datagram. -/
theorem c10_witness :
    pkt1.length + 40 = (boxZ.seal nonce0 pkt1).length
    ∧ 40 ≤ (boxZ.seal nonce0 pkt1).length :=
  c10_open_accept_length boxZ rfl (boxZ.seal nonce0 pkt1) pkt1 (by decide)
